import Mathlib

/-!
Verification development for
`object_detection/models/ssd_mnasnet_fpn_feature_extractor.py`.

The file under study is TensorFlow graph-construction glue: at call time it
builds a fixed network of symbolic tensors; no tensor values are inspected.
We embed it shallowly: tensors are symbolic terms (`T`), the side effects of
layer construction are recorded in an explicit event trace (`Event`),
Python exceptions become `Except.error`, Python `int` becomes `Int`,
Python `float` becomes `ℚ` (exact arithmetic), Python list indexing
(including negative indices) becomes `pyGet`, and Python `dict` lookup on
association lists becomes `lookupStr`.

External dependencies that the file calls but that are not part of this
repository (`nets.mnasnet`, `object_detection.models.feature_map_generators`,
`object_detection.utils.shape_utils`, `object_detection.utils.ops`) are
modelled from their documented interfaces; each such model says so in its
doc comment.
-/

/-- A symbolic tensor, as built at TensorFlow graph-construction time.
`inp` is the (preprocessed) input placeholder of `extract_features`;
the other constructors record which operation produced the tensor and
from which tensors. -/
inductive T where
  | inp : T
  | padToMultiple : T → Nat → T
  | endpoint : T → String → T
  | topDown : T → String → T
  | fixedPadding : T → Nat → T
  | conv : T → Int → Nat → Nat → String → String → Bool → T
  deriving DecidableEq, Repr

/-- A layer-construction event performed by `extract_features`, in program
order: the call to `mnasnet.mnasnet_base` (with its `final_endpoint`
argument), the call to `feature_map_generators.fpn_top_down_feature_maps`
(with the ordered list of endpoint keys handed to it, the depth and the
flags), and each coarse-feature convolution that is constructed (with its
variable-scope name, kernel size, stride, padding mode, output depth and
depthwise flag). -/
inductive Event where
  | mnasnetBaseCall : String → Event
  | fpnTopDownCall : List String → Int → Bool → Bool → Event
  | convCreated : String → Nat → Nat → String → Int → Bool → Event
  deriving DecidableEq, Repr

/-- The constructor arguments shared by both extractor classes
(`__init__` parameters, stored on `self` by `SSDFeatureExtractor.__init__`
and by the subclass constructors). Python `float` is modelled as `ℚ`. -/
structure Config where
  is_training : Bool
  depth_multiplier : ℚ
  min_depth : Int
  pad_to_multiple : Nat
  fpn_min_level : Int
  fpn_max_level : Int
  additional_layer_depth : Int
  reuse_weights : Option Bool
  use_explicit_padding : Bool
  use_depthwise : Bool
  override_base_feature_extractor_hyperparams : Bool
  deriving DecidableEq, Repr

/-- The backbone definition constants of the external `nets.mnasnet`
module, treated as opaque tokens. -/
inductive ConvDefs where
  | MNASNET_A1_DEF : ConvDefs
  | MNASNET_B1_DEF : ConvDefs
  deriving DecidableEq, Repr

/-- The state a constructed extractor instance carries: the stored
constructor arguments plus the backbone definition the constructor fixed
(`self._conv_defs`). -/
structure ExtractorState where
  config : Config
  conv_defs : ConvDefs
  deriving DecidableEq, Repr

/-- A `[batch, height, width, channels]` image batch: its static shape and
its (symbolic, never inspected at graph-construction time) pixel data. -/
structure ImageBatch where
  batch : Nat
  height : Nat
  width : Nat
  channels : Nat
  data : List ℚ
  deriving DecidableEq, Repr

/-- Python list indexing `xs[i]`: non-negative indices from the front,
negative indices from the back, `none` on `IndexError`. -/
def pyGet (xs : List α) (i : Int) : Option α :=
  if 0 ≤ i then xs[i.toNat]?
  else if (-i) ≤ (xs.length : Int) then xs[xs.length - (-i).toNat]?
  else none

/-- Python `range(a, b)` over integers, as a list. -/
def rangeInt (a b : Int) : List Int :=
  (List.range (b - a).toNat).map (fun i : Nat => a + (i : Int))

/-- Python `dict` lookup on an association list (`none` on `KeyError`). -/
def lookupStr (l : List (String × T)) (k : String) : Option T :=
  (l.find? (fun p => p.fst = k)).map Prod.snd

/-- A Python `for` loop that appends `f a` for each element and raises as
soon as one `f a` raises. -/
def mapOption (f : α → Option β) : List α → Option (List β)
  | [] => some []
  | a :: l =>
    match f a, mapOption f l with
    | some b, some bs => some (b :: bs)
    | _, _ => none

/-- Python `int()` truncation toward zero on an exact rational. -/
def intTrunc (q : ℚ) : Int :=
  if 0 ≤ q then ⌊q⌋ else ⌈q⌉

/-- The local `depth_fn` of `extract_features`:
`lambda d: max(int(d * self._depth_multiplier), self._min_depth)`. -/
def depth_fn (cfg : Config) (d : Int) : Int :=
  max (intTrunc ((d : ℚ) * cfg.depth_multiplier)) cfg.min_depth

/-- Recognizes backbone endpoint names of the form `layer_k`
(for `1 ≤ k ≤ 30`) and returns `k`. -/
def parseLayerName (s : String) : Option Nat :=
  ((List.range 30).find? (fun k => s = "layer_" ++ toString (k + 1))).map
    (fun k => k + 1)

/-- The ordered endpoint dictionary `layer_1 .. layer_n` produced by the
backbone when run on input `x`. -/
def endpointsList (x : T) (n : Nat) : List (String × T) :=
  (List.range n).map (fun i =>
    ("layer_" ++ toString (i + 1), T.endpoint x ("layer_" ++ toString (i + 1))))

/-- Modelled from the documented interface of the external
`nets.mnasnet.mnasnet_base` (module `nets.mnasnet` is not part of this
repository): run the backbone on `x` up to `final_endpoint`, returning the
last tensor together with the ordered endpoint dictionary
`layer_1 .. layer_k`; an unrecognized `final_endpoint` raises. The
`depth_multiplier`, `conv_defs` and `use_explicit_padding` arguments select
weights and padding inside the (symbolic) backbone. -/
def mnasnet_base (x : T) (final_endpoint : String) (depth_multiplier : ℚ)
    (conv_defs : ConvDefs) (use_explicit_padding : Bool) :
    Option (T × List (String × T)) :=
  (parseLayerName final_endpoint).map (fun n =>
    (T.endpoint x final_endpoint, endpointsList x n))

/-- Modelled from the documented interface of the external
`object_detection.models.feature_map_generators.fpn_top_down_feature_maps`
(not part of this repository): given the ordered `(name, tensor)` list of
backbone endpoints, it returns an ordered dictionary with one entry
`top_down_{name}` per input entry, in the same order; on an empty input
list it raises (`image_features[-1]` underflows). -/
def fpn_top_down_feature_maps (image_features : List (String × T))
    (depth : Int) (use_depthwise : Bool) (use_explicit_padding : Bool) :
    Option (List (String × T)) :=
  if image_features.isEmpty then none
  else some (image_features.map (fun p =>
    ("top_down_" ++ p.fst, T.topDown p.snd p.fst)))

/-- Modelled from the documented interface of the external
`object_detection.utils.shape_utils.check_min_image_dim` (not part of this
repository): raises unless both the height and the width dimension of the
4-D image tensor are at least `min_dim`. -/
def check_min_image_dim (min_dim : Nat) (img : ImageBatch) :
    Option ImageBatch :=
  if img.height < min_dim ∨ img.width < min_dim then none else some img

/-- One coarse-feature convolution of the bottom-up loop: under
`use_explicit_padding` the previous map is first fixed-padded for the 3x3
kernel, then a 3x3 stride-2 convolution (depthwise-separable when
`use_depthwise`) is built in the given variable scope. -/
def nextCoarse (cfg : Config) (depth : Int) (scopeName : String)
    (last : T) : T :=
  T.conv (if cfg.use_explicit_padding then T.fixedPadding last 3 else last)
    depth 3 2 (if cfg.use_explicit_padding then "VALID" else "SAME")
    scopeName cfg.use_depthwise

/-- The coarse-feature loop of `extract_features`
(`for i in range(base_fpn_max_level + 1, self._fpn_max_level + 1)`):
threads `last_feature_map` through successive 3x3 stride-2 convolutions in
scopes `bottom_up_Conv2d_{i - base_fpn_max_level + 19}`, returning the
appended feature maps and the construction events. -/
def coarseLoop (cfg : Config) (depth : Int) (base : Int) :
    T → List Int → List T × List Event
  | _, [] => ([], [])
  | last, i :: rest =>
    let scopeName := "bottom_up_Conv2d_" ++ toString (i - base + 19)
    let nxt := nextCoarse cfg depth scopeName last
    let r := coarseLoop cfg depth base nxt rest
    (nxt :: r.1,
      Event.convCreated scopeName 3 2
        (if cfg.use_explicit_padding then "VALID" else "SAME")
        depth cfg.use_depthwise :: r.2)

/-- The body of `extract_features`, shared verbatim by the two classes up
to the literals `feature_blocks` and `final_endpoint` (the two Python
method bodies are textually identical except for those two literals).
Returns the event trace together with either the feature-map list or the
raised error. The second Python loop recomputes
`feature_blocks[level - 2]` over the same range as the first, so it is a
traversal of `feature_block_list`. -/
def extractFeaturesWith (feature_blocks : List String)
    (final_endpoint : String) (conv_defs : ConvDefs) (cfg : Config)
    (img : ImageBatch) : List Event × Except String (List T) :=
  match check_min_image_dim 33 img with
  | none => ([], Except.error "image size must be at least 33")
  | some _ =>
    let padded := T.padToMultiple T.inp cfg.pad_to_multiple
    match mnasnet_base padded final_endpoint cfg.depth_multiplier conv_defs
        cfg.use_explicit_padding with
    | none => ([Event.mnasnetBaseCall final_endpoint],
        Except.error "unknown final endpoint")
    | some (_, image_features) =>
      let ev0 := [Event.mnasnetBaseCall final_endpoint]
      let depth := depth_fn cfg cfg.additional_layer_depth
      let base := min cfg.fpn_max_level 5
      let levels := rangeInt cfg.fpn_min_level (base + 1)
      match mapOption (fun level => pyGet feature_blocks (level - 2)) levels with
      | none => (ev0, Except.error "IndexError")
      | some feature_block_list =>
        match mapOption (fun key =>
            (lookupStr image_features key).map (fun t => (key, t)))
            feature_block_list with
        | none => (ev0, Except.error "KeyError")
        | some pairs =>
          let ev1 := ev0 ++ [Event.fpnTopDownCall (pairs.map Prod.fst)
            depth cfg.use_depthwise cfg.use_explicit_padding]
          match fpn_top_down_feature_maps pairs depth cfg.use_depthwise
              cfg.use_explicit_padding with
          | none => (ev1, Except.error "IndexError")
          | some fpn_features =>
            match mapOption (fun key =>
                lookupStr fpn_features ("top_down_" ++ key))
                feature_block_list with
            | none => (ev1, Except.error "KeyError")
            | some fpnMaps =>
              match pyGet feature_blocks (base - 2) with
              | none => (ev1, Except.error "IndexError")
              | some lastKey =>
                match lookupStr fpn_features ("top_down_" ++ lastKey) with
                | none => (ev1, Except.error "KeyError")
                | some last0 =>
                  let nums := rangeInt (base + 1) (cfg.fpn_max_level + 1)
                  let r := coarseLoop cfg depth base last0 nums
                  (ev1 ++ r.2, Except.ok (fpnMaps ++ r.1))

/-- `SSDMNASNetA1FpnFeatureExtractor.__init__`: stores the constructor
arguments and fixes `self._conv_defs = mnasnet.MNASNET_A1_DEF`. -/
def SSDMNASNetA1FpnFeatureExtractor.init (cfg : Config) : ExtractorState :=
  { config := cfg, conv_defs := ConvDefs.MNASNET_A1_DEF }

/-- `SSDMNASNetB1FpnFeatureExtractor.__init__`: stores the constructor
arguments and fixes `self._conv_defs = mnasnet.MNASNET_B1_DEF`. -/
def SSDMNASNetB1FpnFeatureExtractor.init (cfg : Config) : ExtractorState :=
  { config := cfg, conv_defs := ConvDefs.MNASNET_B1_DEF }

/-- A float tensor with its static shape and its values, for `preprocess`
(whose arithmetic is elementwise and shape-preserving); float arithmetic
is modelled exactly over `ℚ`. -/
structure RTensor where
  shape : List Nat
  data : List ℚ
  deriving DecidableEq, Repr

/-- `SSDMNASNetA1FpnFeatureExtractor.preprocess`:
`(2.0 / 255.0) * resized_inputs - 1.0`, elementwise. -/
def SSDMNASNetA1FpnFeatureExtractor.preprocess
    (resized_inputs : RTensor) : RTensor :=
  { shape := resized_inputs.shape,
    data := resized_inputs.data.map (fun x => (2 / 255 : ℚ) * x - 1) }

/-- `SSDMNASNetB1FpnFeatureExtractor.preprocess`:
`(2.0 / 255.0) * resized_inputs - 1.0`, elementwise. -/
def SSDMNASNetB1FpnFeatureExtractor.preprocess
    (resized_inputs : RTensor) : RTensor :=
  { shape := resized_inputs.shape,
    data := resized_inputs.data.map (fun x => (2 / 255 : ℚ) * x - 1) }

/-- The `feature_blocks` literal of
`SSDMNASNetA1FpnFeatureExtractor.extract_features`. -/
def feature_blocks_A1 : List String :=
  ["layer_4", "layer_7", "layer_13", "layer_18"]

/-- The `feature_blocks` literal of
`SSDMNASNetB1FpnFeatureExtractor.extract_features`. -/
def feature_blocks_B1 : List String :=
  ["layer_5", "layer_8", "layer_13", "layer_19"]

/-- `SSDMNASNetA1FpnFeatureExtractor.extract_features`:
`final_endpoint='layer_18'`, feature blocks
`['layer_4', 'layer_7', 'layer_13', 'layer_18']`. -/
def SSDMNASNetA1FpnFeatureExtractor.extract_features
    (self : ExtractorState) (img : ImageBatch) :
    List Event × Except String (List T) :=
  extractFeaturesWith feature_blocks_A1 "layer_18" self.conv_defs
    self.config img

/-- `SSDMNASNetB1FpnFeatureExtractor.extract_features`:
`final_endpoint='layer_19'`, feature blocks
`['layer_5', 'layer_8', 'layer_13', 'layer_19']`. -/
def SSDMNASNetB1FpnFeatureExtractor.extract_features
    (self : ExtractorState) (img : ImageBatch) :
    List Event × Except String (List T) :=
  extractFeaturesWith feature_blocks_B1 "layer_19" self.conv_defs
    self.config img

/-! ## Expected shapes of a successful `extract_features` run -/

/-- The padded input handed to the backbone:
`ops.pad_to_multiple(preprocessed_inputs, self._pad_to_multiple)`. -/
def theInput (cfg : Config) : T :=
  T.padToMultiple T.inp cfg.pad_to_multiple

/-- The pyramid levels served by the FPN proper:
`range(fpn_min_level, base_fpn_max_level + 1)` with
`base_fpn_max_level = min(fpn_max_level, 5)`. -/
def fpnLevels (cfg : Config) : List Int :=
  rangeInt cfg.fpn_min_level (min cfg.fpn_max_level 5 + 1)

/-- The backbone endpoint names handed to `fpn_top_down_feature_maps`, in
increasing level order: `feature_blocks[level - 2]` per level. -/
def fpnKeys (fb : List String) (cfg : Config) : List String :=
  (fpnLevels cfg).map (fun l => fb.getD (l - 2).toNat "")

/-- The top-down feature map the FPN produces for endpoint `k`. -/
def topDownOf (cfg : Config) (k : String) : T :=
  T.topDown (T.endpoint (theInput cfg) k) k

/-- The FPN part of the returned feature-map list, in increasing level
order. -/
def fpnMapsOf (fb : List String) (cfg : Config) : List T :=
  (fpnKeys fb cfg).map (topDownOf cfg)

/-- The loop counter values of the coarse-feature loop:
`range(base_fpn_max_level + 1, fpn_max_level + 1)`. -/
def coarseNums (cfg : Config) : List Int :=
  rangeInt (min cfg.fpn_max_level 5 + 1) (cfg.fpn_max_level + 1)

/-- The coarse part of a successful run: its appended feature maps and its
convolution-construction events. -/
def coarseOf (fb : List String) (cfg : Config) : List T × List Event :=
  coarseLoop cfg (depth_fn cfg cfg.additional_layer_depth)
    (min cfg.fpn_max_level 5)
    (topDownOf cfg (fb.getD (min cfg.fpn_max_level 5 - 2).toNat ""))
    (coarseNums cfg)


/-- Recognizes a backbone-invocation event. -/
def isMnasnetBaseCall : Event → Bool
  | Event.mnasnetBaseCall _ => true
  | _ => false

/-- Recognizes an FPN-invocation event. -/
def isFpnTopDownCall : Event → Bool
  | Event.fpnTopDownCall _ _ _ _ => true
  | _ => false

/-- Recognizes a coarse-convolution construction event. -/
def isConvCreated : Event → Bool
  | Event.convCreated _ _ _ _ _ _ => true
  | _ => false

/-! ## Helper lemmas -/

theorem rangeInt_length (a b : Int) : (rangeInt a b).length = (b - a).toNat := by
  rw [rangeInt, List.length_map, List.length_range]

theorem mem_rangeInt {a b l : Int} : l ∈ rangeInt a b ↔ a ≤ l ∧ l < b := by
  rw [rangeInt, List.mem_map]
  constructor
  · rintro ⟨i, hi, rfl⟩
    rw [List.mem_range] at hi
    omega
  · rintro ⟨h1, h2⟩
    refine ⟨(l - a).toNat, ?_, ?_⟩
    · rw [List.mem_range]
      omega
    · omega

theorem rangeInt_getElem? {a b l : Int} (h1 : a ≤ l) (h2 : l < b) :
    (rangeInt a b)[(l - a).toNat]? = some l := by
  rw [rangeInt, List.getElem?_map, List.getElem?_range (by omega)]
  show some (a + ((l - a).toNat : Int)) = some l
  congr 1
  omega

theorem mapOption_eq_some {f : α → Option β} {g : α → β} :
    ∀ {l : List α}, (∀ a ∈ l, f a = some (g a)) →
    mapOption f l = some (l.map g)
  | [], _ => rfl
  | a :: l, h => by
    have ha := h a (List.mem_cons_self a l)
    have hl := mapOption_eq_some (fun x hx => h x (List.mem_cons_of_mem a hx))
    simp [mapOption, ha, hl]

theorem getElem?_eq_some_getD {xs : List α} {n : Nat} (d : α)
    (h : n < xs.length) : xs[n]? = some (xs.getD n d) := by
  induction xs generalizing n with
  | nil => simp at h
  | cons x xs ih =>
    cases n with
    | zero => simp [List.getD_cons_zero]
    | succ m =>
      rw [List.getElem?_cons_succ, List.getD_cons_succ]
      exact ih (by simpa using h)

theorem getD_mem {xs : List α} {n : Nat} {d : α} (h : n < xs.length) :
    xs.getD n d ∈ xs := by
  induction xs generalizing n with
  | nil => simp at h
  | cons x xs ih =>
    cases n with
    | zero => exact List.mem_cons_self _ _
    | succ m => exact List.mem_cons_of_mem _ (ih (by simpa using h))

theorem pyGet_nonneg {xs : List α} {i : Int} (h0 : 0 ≤ i)
    (h : i.toNat < xs.length) (d : α) :
    pyGet xs i = some (xs.getD i.toNat d) := by
  rw [pyGet, if_pos h0]
  exact getElem?_eq_some_getD d h

theorem string_append_left_cancel {p a b : String}
    (h : p ++ a = p ++ b) : a = b := by
  cases p with
  | mk dp =>
    cases a with
    | mk da =>
      cases b with
      | mk db =>
        have hd : dp ++ da = dp ++ db := congrArg String.data h
        exact congrArg String.mk (List.append_cancel_left hd)

theorem lookup_prefixed_map {v : String → T} {p : String} :
    ∀ {ks : List String} {k0 : String}, k0 ∈ ks →
    lookupStr (ks.map (fun k => (p ++ k, v k))) (p ++ k0) = some (v k0) := by
  intro ks
  induction ks with
  | nil => intro k0 h; simp at h
  | cons k ks ih =>
    intro k0 h0
    by_cases hk : p ++ k = p ++ k0
    · have : k = k0 := string_append_left_cancel hk
      subst this
      simp [lookupStr, List.find?]
    · have hne : k ≠ k0 := fun he => hk (by rw [he])
      have hmem : k0 ∈ ks := by
        rcases List.mem_cons.mp h0 with h | h
        · exact absurd h.symm hne
        · exact h
      have := ih hmem
      simpa [lookupStr, List.find?, hk] using this

theorem coarseLoop_fst_length (cfg : Config) (d b : Int) :
    ∀ (nums : List Int) (last : T),
    (coarseLoop cfg d b last nums).1.length = nums.length := by
  intro nums
  induction nums with
  | nil => intro last; rfl
  | cons i rest ih =>
    intro last
    simp [coarseLoop, ih]

theorem coarseLoop_snd (cfg : Config) (d b : Int) :
    ∀ (nums : List Int) (last : T),
    (coarseLoop cfg d b last nums).2 = nums.map (fun i =>
      Event.convCreated ("bottom_up_Conv2d_" ++ toString (i - b + 19)) 3 2
        (if cfg.use_explicit_padding then "VALID" else "SAME")
        d cfg.use_depthwise) := by
  intro nums
  induction nums with
  | nil => intro last; rfl
  | cons i rest ih =>
    intro last
    simp [coarseLoop, ih]

theorem coarseLoop_chain (cfg : Config) (d b : Int) :
    ∀ (nums : List Int) (last : T) (j : Nat), j < nums.length →
    (coarseLoop cfg d b last nums).1[j]? =
      some (nextCoarse cfg d
        ("bottom_up_Conv2d_" ++ toString (nums.getD j 0 - b + 19))
        ((last :: (coarseLoop cfg d b last nums).1).getD j T.inp)) := by
  intro nums
  induction nums with
  | nil => intro last j hj; simp at hj
  | cons i rest ih =>
    intro last j hj
    cases j with
    | zero => simp [coarseLoop]
    | succ j0 =>
      have := ih (nextCoarse cfg d
        ("bottom_up_Conv2d_" ++ toString (i - b + 19)) last) j0
        (by simpa using hj)
      simpa [coarseLoop] using this

theorem fpnKeys_length (fb : List String) (cfg : Config) :
    (fpnKeys fb cfg).length =
      (min cfg.fpn_max_level 5 + 1 - cfg.fpn_min_level).toNat := by
  rw [fpnKeys, List.length_map, fpnLevels, rangeInt_length]

theorem coarseOf_fst_length (fb : List String) (cfg : Config) :
    (coarseOf fb cfg).1.length =
      (cfg.fpn_max_level - min cfg.fpn_max_level 5).toNat := by
  rw [coarseOf, coarseLoop_fst_length, coarseNums, rangeInt_length]
  omega

/-- Characterization of a successful `extract_features` run, generic in
the per-variant literals `feature_blocks` (4 distinct endpoint names that
the backbone exposes) and `final_endpoint`. -/
theorem extract_spec (fb : List String) (fe : String) (cd : ConvDefs)
    (cfg : Config) (img : ImageBatch) (n : Nat)
    (hfb : fb.length = 4)
    (hfe : parseLayerName fe = some n)
    (hep : ∀ x k, k ∈ fb →
      lookupStr (endpointsList x n) k = some (T.endpoint x k))
    (h2 : 2 ≤ cfg.fpn_min_level) (h5 : cfg.fpn_min_level ≤ 5)
    (hlm : cfg.fpn_min_level ≤ cfg.fpn_max_level)
    (hh : 33 ≤ img.height) (hw : 33 ≤ img.width) :
    extractFeaturesWith fb fe cd cfg img =
      ([Event.mnasnetBaseCall fe,
        Event.fpnTopDownCall (fpnKeys fb cfg)
          (depth_fn cfg cfg.additional_layer_depth)
          cfg.use_depthwise cfg.use_explicit_padding] ++ (coarseOf fb cfg).2,
        Except.ok (fpnMapsOf fb cfg ++ (coarseOf fb cfg).1)) := by
  have hb1 : cfg.fpn_min_level ≤ min cfg.fpn_max_level 5 := le_min hlm h5
  have hb2 : min cfg.fpn_max_level 5 ≤ 5 := min_le_right _ _
  have hchk : check_min_image_dim 33 img = some img := by
    rw [check_min_image_dim, if_neg]
    omega
  have hmb : mnasnet_base (T.padToMultiple T.inp cfg.pad_to_multiple) fe
      cfg.depth_multiplier cd cfg.use_explicit_padding =
      some (T.endpoint (T.padToMultiple T.inp cfg.pad_to_multiple) fe,
        endpointsList (T.padToMultiple T.inp cfg.pad_to_multiple) n) := by
    rw [mnasnet_base, hfe]
    rfl
  have hkeys : ∀ l ∈ rangeInt cfg.fpn_min_level (min cfg.fpn_max_level 5 + 1),
      pyGet fb (l - 2) = some (fb.getD (l - 2).toNat "") := by
    intro l hl
    rw [mem_rangeInt] at hl
    exact pyGet_nonneg (by omega) (by omega) ""
  have hlv : mapOption (fun level => pyGet fb (level - 2))
      (rangeInt cfg.fpn_min_level (min cfg.fpn_max_level 5 + 1)) =
      some (fpnKeys fb cfg) := by
    rw [fpnKeys, fpnLevels]
    exact mapOption_eq_some hkeys
  have hkfb : ∀ k ∈ fpnKeys fb cfg, k ∈ fb := by
    intro k hk
    rw [fpnKeys, List.mem_map] at hk
    obtain ⟨l, hl, rfl⟩ := hk
    rw [fpnLevels, mem_rangeInt] at hl
    exact getD_mem (by omega)
  have hpairs : mapOption (fun key =>
      (lookupStr (endpointsList (T.padToMultiple T.inp cfg.pad_to_multiple) n)
        key).map (fun t => (key, t))) (fpnKeys fb cfg) =
      some ((fpnKeys fb cfg).map (fun k =>
        (k, T.endpoint (T.padToMultiple T.inp cfg.pad_to_multiple) k))) := by
    apply mapOption_eq_some
    intro k hk
    rw [hep _ k (hkfb k hk)]
    rfl
  have hne : ((fpnKeys fb cfg).map (fun k =>
      (k, T.endpoint (T.padToMultiple T.inp cfg.pad_to_multiple) k))).isEmpty =
      false := by
    have : (fpnKeys fb cfg).length ≠ 0 := by
      rw [fpnKeys_length]
      omega
    rcases hK : fpnKeys fb cfg with _ | ⟨k, ks⟩
    · rw [hK] at this
      simp at this
    · rfl
  have hfpn : fpn_top_down_feature_maps ((fpnKeys fb cfg).map (fun k =>
      (k, T.endpoint (T.padToMultiple T.inp cfg.pad_to_multiple) k)))
      (depth_fn cfg cfg.additional_layer_depth)
      cfg.use_depthwise cfg.use_explicit_padding =
      some ((fpnKeys fb cfg).map (fun k => ("top_down_" ++ k,
        T.topDown (T.endpoint (T.padToMultiple T.inp cfg.pad_to_multiple) k)
          k))) := by
    rw [fpn_top_down_feature_maps, hne]
    rw [List.map_map]
    rfl
  have hlook : ∀ k ∈ fpnKeys fb cfg,
      lookupStr ((fpnKeys fb cfg).map (fun k => ("top_down_" ++ k,
        T.topDown (T.endpoint (T.padToMultiple T.inp cfg.pad_to_multiple) k)
          k))) ("top_down_" ++ k) = some (topDownOf cfg k) := by
    intro k hk
    exact lookup_prefixed_map hk
  have hmaps : mapOption (fun key =>
      lookupStr ((fpnKeys fb cfg).map (fun k => ("top_down_" ++ k,
        T.topDown (T.endpoint (T.padToMultiple T.inp cfg.pad_to_multiple) k)
          k))) ("top_down_" ++ key)) (fpnKeys fb cfg) =
      some (fpnMapsOf fb cfg) := by
    rw [fpnMapsOf]
    exact mapOption_eq_some hlook
  have hlastKey : pyGet fb (min cfg.fpn_max_level 5 - 2) =
      some (fb.getD (min cfg.fpn_max_level 5 - 2).toNat "") :=
    pyGet_nonneg (by omega) (by omega) ""
  have hlastMem : fb.getD (min cfg.fpn_max_level 5 - 2).toNat "" ∈
      fpnKeys fb cfg := by
    rw [fpnKeys, List.mem_map]
    exact ⟨min cfg.fpn_max_level 5, by
      rw [fpnLevels, mem_rangeInt]
      omega, rfl⟩
  have hlast : lookupStr ((fpnKeys fb cfg).map (fun k => ("top_down_" ++ k,
      T.topDown (T.endpoint (T.padToMultiple T.inp cfg.pad_to_multiple) k)
        k))) ("top_down_" ++ fb.getD (min cfg.fpn_max_level 5 - 2).toNat "") =
      some (topDownOf cfg
        (fb.getD (min cfg.fpn_max_level 5 - 2).toNat "")) :=
    lookup_prefixed_map hlastMem
  unfold extractFeaturesWith
  rw [hchk]
  dsimp only
  rw [hmb]
  dsimp only
  rw [hlv]
  dsimp only
  rw [hpairs]
  dsimp only
  rw [hfpn]
  dsimp only
  rw [hmaps]
  dsimp only
  rw [hlastKey]
  dsimp only
  rw [hlast]
  dsimp only
  have hfst : List.map Prod.fst ((fpnKeys fb cfg).map (fun k =>
      (k, T.endpoint (T.padToMultiple T.inp cfg.pad_to_multiple) k))) =
      fpnKeys fb cfg := by
    simp [Function.comp_def]
  rw [hfst]
  rfl

theorem ep_A1 (x : T) : ∀ k ∈ feature_blocks_A1,
    lookupStr (endpointsList x 18) k = some (T.endpoint x k) := by
  intro k hk
  rw [feature_blocks_A1] at hk
  simp only [List.mem_cons, List.not_mem_nil, or_false] at hk
  rcases hk with rfl | rfl | rfl | rfl
  · rfl
  · rfl
  · rfl
  · rfl

theorem ep_B1 (x : T) : ∀ k ∈ feature_blocks_B1,
    lookupStr (endpointsList x 19) k = some (T.endpoint x k) := by
  intro k hk
  rw [feature_blocks_B1] at hk
  simp only [List.mem_cons, List.not_mem_nil, or_false] at hk
  rcases hk with rfl | rfl | rfl | rfl
  · rfl
  · rfl
  · rfl
  · rfl

theorem extract_features_A1_eq (cfg : Config) (img : ImageBatch)
    (h2 : 2 ≤ cfg.fpn_min_level) (h5 : cfg.fpn_min_level ≤ 5)
    (hlm : cfg.fpn_min_level ≤ cfg.fpn_max_level)
    (hh : 33 ≤ img.height) (hw : 33 ≤ img.width) :
    SSDMNASNetA1FpnFeatureExtractor.extract_features
      (SSDMNASNetA1FpnFeatureExtractor.init cfg) img =
      ([Event.mnasnetBaseCall "layer_18",
        Event.fpnTopDownCall (fpnKeys feature_blocks_A1 cfg)
          (depth_fn cfg cfg.additional_layer_depth)
          cfg.use_depthwise cfg.use_explicit_padding] ++
          (coarseOf feature_blocks_A1 cfg).2,
        Except.ok (fpnMapsOf feature_blocks_A1 cfg ++
          (coarseOf feature_blocks_A1 cfg).1)) :=
  extract_spec feature_blocks_A1 "layer_18" ConvDefs.MNASNET_A1_DEF cfg img 18
    rfl rfl ep_A1 h2 h5 hlm hh hw

theorem extract_features_B1_eq (cfg : Config) (img : ImageBatch)
    (h2 : 2 ≤ cfg.fpn_min_level) (h5 : cfg.fpn_min_level ≤ 5)
    (hlm : cfg.fpn_min_level ≤ cfg.fpn_max_level)
    (hh : 33 ≤ img.height) (hw : 33 ≤ img.width) :
    SSDMNASNetB1FpnFeatureExtractor.extract_features
      (SSDMNASNetB1FpnFeatureExtractor.init cfg) img =
      ([Event.mnasnetBaseCall "layer_19",
        Event.fpnTopDownCall (fpnKeys feature_blocks_B1 cfg)
          (depth_fn cfg cfg.additional_layer_depth)
          cfg.use_depthwise cfg.use_explicit_padding] ++
          (coarseOf feature_blocks_B1 cfg).2,
        Except.ok (fpnMapsOf feature_blocks_B1 cfg ++
          (coarseOf feature_blocks_B1 cfg).1)) :=
  extract_spec feature_blocks_B1 "layer_19" ConvDefs.MNASNET_B1_DEF cfg img 19
    rfl rfl ep_B1 h2 h5 hlm hh hw

theorem fpnMapsOf_length (fb : List String) (cfg : Config) :
    (fpnMapsOf fb cfg).length =
      (min cfg.fpn_max_level 5 + 1 - cfg.fpn_min_level).toNat := by
  rw [fpnMapsOf, List.length_map, fpnKeys_length]

theorem rangeInt_getElem_nat {a b : Int} {j : Nat} (h : (j : Int) < b - a) :
    (rangeInt a b)[j]? = some (a + (j : Int)) := by
  have h2 := rangeInt_getElem? (a := a) (b := b) (l := a + (j : Int))
    (by omega) (by omega)
  rwa [show ((a + (j : Int)) - a).toNat = j by omega] at h2

theorem fpnKeys_getElem {fb : List String} {cfg : Config} {L : Int}
    (h1 : cfg.fpn_min_level ≤ L) (h2 : L ≤ min cfg.fpn_max_level 5) :
    (fpnKeys fb cfg)[(L - cfg.fpn_min_level).toNat]? =
      some (fb.getD (L - 2).toNat "") := by
  rw [fpnKeys, fpnLevels, List.getElem?_map, rangeInt_getElem? h1 (by omega)]
  rfl

theorem fpnMapsOf_getElem {fb : List String} {cfg : Config} {L : Int}
    (h1 : cfg.fpn_min_level ≤ L) (h2 : L ≤ min cfg.fpn_max_level 5) :
    (fpnMapsOf fb cfg)[(L - cfg.fpn_min_level).toNat]? =
      some (topDownOf cfg (fb.getD (L - 2).toNat "")) := by
  rw [fpnMapsOf, List.getElem?_map, fpnKeys_getElem h1 h2]
  rfl

theorem coarseOf_snd_filter_mnas (fb : List String) (cfg : Config) :
    ((coarseOf fb cfg).2).filter isMnasnetBaseCall = [] := by
  rw [List.filter_eq_nil_iff]
  intro e he
  rw [coarseOf, coarseLoop_snd, List.mem_map] at he
  obtain ⟨i, hi, rfl⟩ := he
  simp [isMnasnetBaseCall]

theorem coarseOf_snd_filter_fpn (fb : List String) (cfg : Config) :
    ((coarseOf fb cfg).2).filter isFpnTopDownCall = [] := by
  rw [List.filter_eq_nil_iff]
  intro e he
  rw [coarseOf, coarseLoop_snd, List.mem_map] at he
  obtain ⟨i, hi, rfl⟩ := he
  simp [isFpnTopDownCall]

theorem coarseOf_snd_filter_conv (fb : List String) (cfg : Config) :
    ((coarseOf fb cfg).2).filter isConvCreated = (coarseOf fb cfg).2 := by
  rw [List.filter_eq_self]
  intro e he
  rw [coarseOf, coarseLoop_snd, List.mem_map] at he
  obtain ⟨i, hi, rfl⟩ := he
  rfl

theorem coarseOf_snd_length (fb : List String) (cfg : Config) :
    ((coarseOf fb cfg).2).length =
      (cfg.fpn_max_level - min cfg.fpn_max_level 5).toNat := by
  rw [coarseOf, coarseLoop_snd, List.length_map, coarseNums, rangeInt_length]
  omega

theorem coarseNums_getElem {cfg : Config} {j : Nat}
    (hmax : 5 < cfg.fpn_max_level) (hj : (j : Int) < cfg.fpn_max_level - 5) :
    (coarseNums cfg)[j]? = some (6 + (j : Int)) := by
  have hmin : min cfg.fpn_max_level 5 = 5 :=
    min_eq_right (by omega)
  rw [coarseNums, hmin]
  have h := rangeInt_getElem_nat (a := (5 : Int) + 1)
    (b := cfg.fpn_max_level + 1) (j := j) (by omega)
  rwa [show ((5 : Int) + 1) + (j : Int) = 6 + (j : Int) from by omega] at h

theorem coarseOf_snd_getElem {fb : List String} {cfg : Config} {j : Nat}
    (hmax : 5 < cfg.fpn_max_level) (hj : (j : Int) < cfg.fpn_max_level - 5) :
    ((coarseOf fb cfg).2)[j]? = some (Event.convCreated
      ("bottom_up_Conv2d_" ++ toString (20 + (j : Int))) 3 2
      (if cfg.use_explicit_padding then "VALID" else "SAME")
      (depth_fn cfg cfg.additional_layer_depth) cfg.use_depthwise) := by
  rw [coarseOf, coarseLoop_snd, List.getElem?_map, coarseNums_getElem hmax hj]
  have harith : (6 : Int) + (j : Int) - min cfg.fpn_max_level 5 + 19 =
      20 + (j : Int) := by
    rw [min_eq_right (show (5 : Int) ≤ cfg.fpn_max_level from by omega)]
    omega
  show some (Event.convCreated ("bottom_up_Conv2d_" ++
      toString ((6 : Int) + (j : Int) - min cfg.fpn_max_level 5 + 19)) 3 2
      (if cfg.use_explicit_padding then "VALID" else "SAME")
      (depth_fn cfg cfg.additional_layer_depth) cfg.use_depthwise) = _
  rw [harith]

theorem coarseOf_fst_chain {fb : List String} {cfg : Config} {j : Nat}
    (hmax : 5 < cfg.fpn_max_level) (hj : (j : Int) < cfg.fpn_max_level - 5) :
    ((coarseOf fb cfg).1)[j]? = some (nextCoarse cfg
      (depth_fn cfg cfg.additional_layer_depth)
      ("bottom_up_Conv2d_" ++ toString (20 + (j : Int)))
      ((topDownOf cfg (fb.getD (min cfg.fpn_max_level 5 - 2).toNat "") ::
        (coarseOf fb cfg).1).getD j T.inp)) := by
  have hlen : j < (coarseNums cfg).length := by
    rw [coarseNums, rangeInt_length]
    omega
  have hchain := coarseLoop_chain cfg
    (depth_fn cfg cfg.additional_layer_depth) (min cfg.fpn_max_level 5)
    (coarseNums cfg)
    (topDownOf cfg (fb.getD (min cfg.fpn_max_level 5 - 2).toNat "")) j hlen
  rw [coarseOf, hchain]
  have hg : (coarseNums cfg).getD j 0 = 6 + (j : Int) := by
    rw [List.getD_eq_getElem?_getD, coarseNums_getElem hmax hj]
    rfl
  rw [hg, show (6 : Int) + (j : Int) - min cfg.fpn_max_level 5 + 19 =
      20 + (j : Int) from by
    rw [min_eq_right (show (5 : Int) ≤ cfg.fpn_max_level from by omega)]
    omega]

theorem coarseLoop_snd_filter_mnas (cfg : Config) (d b : Int)
    (nums : List Int) (last : T) :
    ((coarseLoop cfg d b last nums).2).filter isMnasnetBaseCall = [] := by
  rw [List.filter_eq_nil_iff]
  intro e he
  rw [coarseLoop_snd, List.mem_map] at he
  obtain ⟨i, hi, rfl⟩ := he
  simp [isMnasnetBaseCall]

theorem extract_trace_filter_mnas (fb : List String) (fe : String)
    (cd : ConvDefs) (cfg : Config) (img : ImageBatch)
    (hh : 33 ≤ img.height) (hw : 33 ≤ img.width) :
    (extractFeaturesWith fb fe cd cfg img).1.filter isMnasnetBaseCall =
      [Event.mnasnetBaseCall fe] := by
  have hchk : check_min_image_dim 33 img = some img := by
    rw [check_min_image_dim, if_neg]
    omega
  unfold extractFeaturesWith
  rw [hchk]
  dsimp only
  split
  · simp [List.filter_cons, isMnasnetBaseCall]
  · split
    · simp [List.filter_cons, isMnasnetBaseCall]
    · split
      · simp [List.filter_cons, isMnasnetBaseCall]
      · split
        · simp [List.filter_append, List.filter_cons, isMnasnetBaseCall]
        · split
          · simp [List.filter_append, List.filter_cons, isMnasnetBaseCall]
          · split
            · simp [List.filter_append, List.filter_cons, isMnasnetBaseCall]
            · split
              · simp [List.filter_append, List.filter_cons,
                  isMnasnetBaseCall]
              · simp [List.filter_append, List.filter_cons,
                  coarseLoop_snd_filter_mnas, isMnasnetBaseCall]

theorem extract_data_irrel (fb : List String) (fe : String) (cd : ConvDefs)
    (cfg : Config) (b h w c : Nat) (d d' : List ℚ) :
    extractFeaturesWith fb fe cd cfg ⟨b, h, w, c, d⟩ =
      extractFeaturesWith fb fe cd cfg ⟨b, h, w, c, d'⟩ := by
  unfold extractFeaturesWith
  by_cases hc : h < 33 ∨ w < 33
  · rw [show check_min_image_dim 33 ⟨b, h, w, c, d⟩ = none from by
        rw [check_min_image_dim]
        exact if_pos hc,
      show check_min_image_dim 33 ⟨b, h, w, c, d'⟩ = none from by
        rw [check_min_image_dim]
        exact if_pos hc]
  · rw [show check_min_image_dim 33 ⟨b, h, w, c, d⟩ =
        some ⟨b, h, w, c, d⟩ from by
        rw [check_min_image_dim]
        exact if_neg hc,
      show check_min_image_dim 33 ⟨b, h, w, c, d'⟩ =
        some ⟨b, h, w, c, d'⟩ from by
        rw [check_min_image_dim]
        exact if_neg hc]

/-! ## Claims -/

/-- C4: the file's two feature-extractor variants fix the backbone
definition in their constructors — `SSDMNASNetA1FpnFeatureExtractor`
always stores `mnasnet.MNASNET_A1_DEF` and
`SSDMNASNetB1FpnFeatureExtractor` always stores
`mnasnet.MNASNET_B1_DEF` — independently of every constructor
argument. -/
theorem C4_conv_defs_fixed :
    (∀ cfg : Config, (SSDMNASNetA1FpnFeatureExtractor.init cfg).conv_defs =
      ConvDefs.MNASNET_A1_DEF) ∧
    (∀ cfg : Config, (SSDMNASNetB1FpnFeatureExtractor.init cfg).conv_defs =
      ConvDefs.MNASNET_B1_DEF) ∧
    (∀ cfg cfg' : Config,
      (SSDMNASNetA1FpnFeatureExtractor.init cfg).conv_defs =
        (SSDMNASNetA1FpnFeatureExtractor.init cfg').conv_defs) ∧
    (∀ cfg cfg' : Config,
      (SSDMNASNetB1FpnFeatureExtractor.init cfg).conv_defs =
        (SSDMNASNetB1FpnFeatureExtractor.init cfg').conv_defs) :=
  ⟨fun _ => rfl, fun _ => rfl, fun _ _ => rfl, fun _ _ => rfl⟩

/-- C9: the `preprocess` operations of the two variants are extensionally
equal: both compute `(2.0 / 255.0) * resized_inputs - 1.0`. -/
theorem C9_preprocess_equal (x : RTensor) :
    SSDMNASNetA1FpnFeatureExtractor.preprocess x =
      SSDMNASNetB1FpnFeatureExtractor.preprocess x := rfl

/-- C8: `preprocess` returns `(2/255) * x - 1` elementwise without
changing the shape; every pixel value in `[0, 255]` lands in `[-1, 1]`,
with `0 ↦ -1` and `255 ↦ 1` (exact rational arithmetic stands in for the
framework's float arithmetic). -/
theorem C8_preprocess_range (x : RTensor) :
    (SSDMNASNetA1FpnFeatureExtractor.preprocess x).shape = x.shape ∧
    (SSDMNASNetA1FpnFeatureExtractor.preprocess x).data =
      x.data.map (fun v => (2 / 255 : ℚ) * v - 1) ∧
    (∀ i : Nat, ∀ v : ℚ, x.data[i]? = some v → 0 ≤ v → v ≤ 255 →
      ∃ y, (SSDMNASNetA1FpnFeatureExtractor.preprocess x).data[i]? =
        some y ∧ -1 ≤ y ∧ y ≤ 1 ∧ (v = 0 → y = -1) ∧ (v = 255 → y = 1)) := by
  refine ⟨rfl, rfl, ?_⟩
  intro i v hv h0 h255
  refine ⟨(2 / 255 : ℚ) * v - 1, ?_, by linarith, by linarith, ?_, ?_⟩
  · show (x.data.map (fun v => (2 / 255 : ℚ) * v - 1))[i]? = _
    rw [List.getElem?_map, hv]
    rfl
  · rintro rfl
    norm_num
  · rintro rfl
    norm_num

/-- C8 witness: pixel value 0 of a concrete tensor maps to a value in
`[-1, 1]` that is `-1`. -/
theorem C8_preprocess_range_witness :
    ∃ y : ℚ, (SSDMNASNetA1FpnFeatureExtractor.preprocess
      ⟨[1, 2, 2, 3], [0, 255, 100]⟩).data[0]? = some y ∧
      -1 ≤ y ∧ y ≤ 1 ∧ ((0 : ℚ) = 0 → y = -1) ∧ ((0 : ℚ) = 255 → y = 1) :=
  (C8_preprocess_range ⟨[1, 2, 2, 3], [0, 255, 100]⟩).2.2 0 0 rfl
    (le_refl 0) (by norm_num)

/-- C6: for a fixed instance, `extract_features` (its event trace and its
symbolic outputs) depends only on the constructor arguments and the input
batch's static shape, never on the pixel values; consequently two calls on
equal inputs produce equal results. -/
theorem C6_value_independence :
    (∀ (cfg : Config) (b h w c : Nat) (d d' : List ℚ),
      SSDMNASNetA1FpnFeatureExtractor.extract_features
        (SSDMNASNetA1FpnFeatureExtractor.init cfg) ⟨b, h, w, c, d⟩ =
      SSDMNASNetA1FpnFeatureExtractor.extract_features
        (SSDMNASNetA1FpnFeatureExtractor.init cfg) ⟨b, h, w, c, d'⟩) ∧
    (∀ (cfg : Config) (b h w c : Nat) (d d' : List ℚ),
      SSDMNASNetB1FpnFeatureExtractor.extract_features
        (SSDMNASNetB1FpnFeatureExtractor.init cfg) ⟨b, h, w, c, d⟩ =
      SSDMNASNetB1FpnFeatureExtractor.extract_features
        (SSDMNASNetB1FpnFeatureExtractor.init cfg) ⟨b, h, w, c, d'⟩) ∧
    (∀ (cfg : Config) (img img' : ImageBatch), img = img' →
      SSDMNASNetA1FpnFeatureExtractor.extract_features
        (SSDMNASNetA1FpnFeatureExtractor.init cfg) img =
      SSDMNASNetA1FpnFeatureExtractor.extract_features
        (SSDMNASNetA1FpnFeatureExtractor.init cfg) img') ∧
    (∀ (cfg : Config) (img img' : ImageBatch), img = img' →
      SSDMNASNetB1FpnFeatureExtractor.extract_features
        (SSDMNASNetB1FpnFeatureExtractor.init cfg) img =
      SSDMNASNetB1FpnFeatureExtractor.extract_features
        (SSDMNASNetB1FpnFeatureExtractor.init cfg) img') :=
  ⟨fun cfg b h w c d d' =>
      extract_data_irrel feature_blocks_A1 "layer_18"
        ConvDefs.MNASNET_A1_DEF cfg b h w c d d',
    fun cfg b h w c d d' =>
      extract_data_irrel feature_blocks_B1 "layer_19"
        ConvDefs.MNASNET_B1_DEF cfg b h w c d d',
    fun _ _ _ h => by rw [h],
    fun _ _ _ h => by rw [h]⟩

/-- C6 witness: two concrete calls that differ only in pixel data give the
same result, and a repeated identical call gives the same result. -/
theorem C6_value_independence_witness :
    (SSDMNASNetA1FpnFeatureExtractor.extract_features
      (SSDMNASNetA1FpnFeatureExtractor.init
        ⟨true, 1, 16, 1, 3, 7, 256, none, false, false, false⟩)
      ⟨1, 64, 64, 3, [0]⟩ =
    SSDMNASNetA1FpnFeatureExtractor.extract_features
      (SSDMNASNetA1FpnFeatureExtractor.init
        ⟨true, 1, 16, 1, 3, 7, 256, none, false, false, false⟩)
      ⟨1, 64, 64, 3, [1, 2]⟩) ∧
    (SSDMNASNetB1FpnFeatureExtractor.extract_features
      (SSDMNASNetB1FpnFeatureExtractor.init
        ⟨true, 1, 16, 1, 3, 7, 256, none, false, false, false⟩)
      ⟨1, 64, 64, 3, [0]⟩ =
    SSDMNASNetB1FpnFeatureExtractor.extract_features
      (SSDMNASNetB1FpnFeatureExtractor.init
        ⟨true, 1, 16, 1, 3, 7, 256, none, false, false, false⟩)
      ⟨1, 64, 64, 3, [0]⟩) :=
  ⟨C6_value_independence.1
      ⟨true, 1, 16, 1, 3, 7, 256, none, false, false, false⟩
      1 64 64 3 [0] [1, 2],
    C6_value_independence.2.2.2
      ⟨true, 1, 16, 1, 3, 7, 256, none, false, false, false⟩ _ _ rfl⟩

/-- C7: `extract_features` raises (constructing nothing — empty trace)
exactly when the input's height or width is below 33, and the
minimum-dimension check passes whenever both are at least 33. -/
theorem C7_min_image_dim (cfg : Config) (img : ImageBatch) :
    (img.height < 33 ∨ img.width < 33 →
      check_min_image_dim 33 img = none ∧
      SSDMNASNetA1FpnFeatureExtractor.extract_features
        (SSDMNASNetA1FpnFeatureExtractor.init cfg) img =
        ([], Except.error "image size must be at least 33") ∧
      SSDMNASNetB1FpnFeatureExtractor.extract_features
        (SSDMNASNetB1FpnFeatureExtractor.init cfg) img =
        ([], Except.error "image size must be at least 33")) ∧
    (33 ≤ img.height → 33 ≤ img.width →
      check_min_image_dim 33 img = some img) := by
  constructor
  · intro hc
    have hnone : check_min_image_dim 33 img = none := by
      rw [check_min_image_dim]
      exact if_pos hc
    refine ⟨hnone, ?_, ?_⟩
    · show extractFeaturesWith feature_blocks_A1 "layer_18" _ cfg img = _
      unfold extractFeaturesWith
      rw [hnone]
    · show extractFeaturesWith feature_blocks_B1 "layer_19" _ cfg img = _
      unfold extractFeaturesWith
      rw [hnone]
  · intro hh hw
    rw [check_min_image_dim]
    exact if_neg (by omega)

/-- C7 witness: a 32-pixel-high batch is rejected with an empty trace, and
a 64x64 batch passes the check. -/
theorem C7_min_image_dim_witness :
    (check_min_image_dim 33 ⟨1, 32, 100, 3, []⟩ = none ∧
      SSDMNASNetA1FpnFeatureExtractor.extract_features
        (SSDMNASNetA1FpnFeatureExtractor.init
          ⟨true, 1, 16, 1, 3, 7, 256, none, false, false, false⟩)
        ⟨1, 32, 100, 3, []⟩ =
        ([], Except.error "image size must be at least 33") ∧
      SSDMNASNetB1FpnFeatureExtractor.extract_features
        (SSDMNASNetB1FpnFeatureExtractor.init
          ⟨true, 1, 16, 1, 3, 7, 256, none, false, false, false⟩)
        ⟨1, 32, 100, 3, []⟩ =
        ([], Except.error "image size must be at least 33")) ∧
    check_min_image_dim 33 ⟨1, 64, 64, 3, [0]⟩ = some ⟨1, 64, 64, 3, [0]⟩ :=
  ⟨(C7_min_image_dim ⟨true, 1, 16, 1, 3, 7, 256, none, false, false, false⟩
      ⟨1, 32, 100, 3, []⟩).1 (Or.inl (by norm_num)),
    (C7_min_image_dim ⟨true, 1, 16, 1, 3, 7, 256, none, false, false, false⟩
      ⟨1, 64, 64, 3, [0]⟩).2 (by norm_num) (by norm_num)⟩

/-- C5: in every dimension-accepted call to `extract_features`, the
backbone `mnasnet_base` is invoked exactly once, with
`final_endpoint='layer_18'` for the A1 variant and
`final_endpoint='layer_19'` for the B1 variant, regardless of
`fpn_min_level` and `fpn_max_level`. -/
theorem C5_final_endpoint (cfg : Config) (img : ImageBatch)
    (hh : 33 ≤ img.height) (hw : 33 ≤ img.width) :
    ((SSDMNASNetA1FpnFeatureExtractor.extract_features
      (SSDMNASNetA1FpnFeatureExtractor.init cfg) img).1.filter
        isMnasnetBaseCall = [Event.mnasnetBaseCall "layer_18"]) ∧
    ((SSDMNASNetB1FpnFeatureExtractor.extract_features
      (SSDMNASNetB1FpnFeatureExtractor.init cfg) img).1.filter
        isMnasnetBaseCall = [Event.mnasnetBaseCall "layer_19"]) :=
  ⟨extract_trace_filter_mnas feature_blocks_A1 "layer_18"
      ConvDefs.MNASNET_A1_DEF cfg img hh hw,
    extract_trace_filter_mnas feature_blocks_B1 "layer_19"
      ConvDefs.MNASNET_B1_DEF cfg img hh hw⟩

/-- C5 witness: even with out-of-range pyramid levels (6..9), the backbone
call of each variant uses its fixed final endpoint. -/
theorem C5_final_endpoint_witness :
    ((SSDMNASNetA1FpnFeatureExtractor.extract_features
      (SSDMNASNetA1FpnFeatureExtractor.init
        ⟨true, 1, 16, 1, 6, 9, 256, none, false, false, false⟩)
      ⟨1, 40, 40, 3, []⟩).1.filter isMnasnetBaseCall =
        [Event.mnasnetBaseCall "layer_18"]) ∧
    ((SSDMNASNetB1FpnFeatureExtractor.extract_features
      (SSDMNASNetB1FpnFeatureExtractor.init
        ⟨true, 1, 16, 1, 6, 9, 256, none, false, false, false⟩)
      ⟨1, 40, 40, 3, []⟩).1.filter isMnasnetBaseCall =
        [Event.mnasnetBaseCall "layer_19"]) :=
  C5_final_endpoint ⟨true, 1, 16, 1, 6, 9, 256, none, false, false, false⟩
    ⟨1, 40, 40, 3, []⟩ (by norm_num) (by norm_num)

/-- C1 counterexample: with `fpn_min_level = 6 ≤ 7 = fpn_max_level` and a
33x33 input, `extract_features` raises (the FPN is handed an empty
endpoint list) instead of returning `7 - 6 + 1 = 2` feature maps, so the
claim as stated fails. -/
theorem C1_counterexample :
    ¬ ∃ tr maps, SSDMNASNetA1FpnFeatureExtractor.extract_features
      (SSDMNASNetA1FpnFeatureExtractor.init
        ⟨true, 1, 16, 1, 6, 7, 256, none, false, false, false⟩)
      ⟨1, 33, 33, 3, []⟩ = (tr, Except.ok maps) := by
  rintro ⟨tr, maps, h⟩
  have h2 : (SSDMNASNetA1FpnFeatureExtractor.extract_features
      (SSDMNASNetA1FpnFeatureExtractor.init
        ⟨true, 1, 16, 1, 6, 7, 256, none, false, false, false⟩)
      ⟨1, 33, 33, 3, []⟩).2 = Except.ok maps := by rw [h]
  rw [show (SSDMNASNetA1FpnFeatureExtractor.extract_features
      (SSDMNASNetA1FpnFeatureExtractor.init
        ⟨true, 1, 16, 1, 6, 7, 256, none, false, false, false⟩)
      ⟨1, 33, 33, 3, []⟩).2 = Except.error "IndexError" from rfl] at h2
  exact Except.noConfusion h2

/-- C2: every pyramid level `L` in `[fpn_min_level, min(fpn_max_level, 5)]`
is fed by the fixed backbone endpoint `feature_blocks[L - 2]` (A1:
`['layer_4', 'layer_7', 'layer_13', 'layer_18']`, B1:
`['layer_5', 'layer_8', 'layer_13', 'layer_19']`), and those endpoint
names, in increasing level order, are exactly the inputs handed to
`fpn_top_down_feature_maps`. -/
theorem C2_fpn_wiring (cfg : Config) (img : ImageBatch)
    (h2 : 2 ≤ cfg.fpn_min_level) (h5 : cfg.fpn_min_level ≤ 5)
    (hlm : cfg.fpn_min_level ≤ cfg.fpn_max_level)
    (hh : 33 ≤ img.height) (hw : 33 ≤ img.width) :
    (∃ tr maps, SSDMNASNetA1FpnFeatureExtractor.extract_features
        (SSDMNASNetA1FpnFeatureExtractor.init cfg) img =
        (tr, Except.ok maps) ∧
      tr.filter isFpnTopDownCall = [Event.fpnTopDownCall
        (fpnKeys feature_blocks_A1 cfg)
        (depth_fn cfg cfg.additional_layer_depth)
        cfg.use_depthwise cfg.use_explicit_padding] ∧
      ∀ L : Int, cfg.fpn_min_level ≤ L → L ≤ min cfg.fpn_max_level 5 →
        (fpnKeys feature_blocks_A1 cfg)[(L - cfg.fpn_min_level).toNat]? =
          some (feature_blocks_A1.getD (L - 2).toNat "") ∧
        maps[(L - cfg.fpn_min_level).toNat]? =
          some (topDownOf cfg (feature_blocks_A1.getD (L - 2).toNat ""))) ∧
    (∃ tr maps, SSDMNASNetB1FpnFeatureExtractor.extract_features
        (SSDMNASNetB1FpnFeatureExtractor.init cfg) img =
        (tr, Except.ok maps) ∧
      tr.filter isFpnTopDownCall = [Event.fpnTopDownCall
        (fpnKeys feature_blocks_B1 cfg)
        (depth_fn cfg cfg.additional_layer_depth)
        cfg.use_depthwise cfg.use_explicit_padding] ∧
      ∀ L : Int, cfg.fpn_min_level ≤ L → L ≤ min cfg.fpn_max_level 5 →
        (fpnKeys feature_blocks_B1 cfg)[(L - cfg.fpn_min_level).toNat]? =
          some (feature_blocks_B1.getD (L - 2).toNat "") ∧
        maps[(L - cfg.fpn_min_level).toNat]? =
          some (topDownOf cfg (feature_blocks_B1.getD (L - 2).toNat ""))) := by
  refine ⟨⟨_, _, extract_features_A1_eq cfg img h2 h5 hlm hh hw, ?_, ?_⟩,
    ⟨_, _, extract_features_B1_eq cfg img h2 h5 hlm hh hw, ?_, ?_⟩⟩
  · simp [List.filter_append, List.filter_cons, isFpnTopDownCall,
      coarseOf_snd_filter_fpn]
  · intro L hL1 hL2
    refine ⟨fpnKeys_getElem hL1 hL2, ?_⟩
    rw [List.getElem?_append_left (by rw [fpnMapsOf_length]; omega)]
    exact fpnMapsOf_getElem hL1 hL2
  · simp [List.filter_append, List.filter_cons, isFpnTopDownCall,
      coarseOf_snd_filter_fpn]
  · intro L hL1 hL2
    refine ⟨fpnKeys_getElem hL1 hL2, ?_⟩
    rw [List.getElem?_append_left (by rw [fpnMapsOf_length]; omega)]
    exact fpnMapsOf_getElem hL1 hL2

/-- C2 witness: with the defaults, the A1 variant hands exactly
`['layer_7', 'layer_13', 'layer_18']` to `fpn_top_down_feature_maps` and
level 3 is served by the top-down map of `layer_7`. -/
theorem C2_fpn_wiring_witness :
    ∃ tr maps, SSDMNASNetA1FpnFeatureExtractor.extract_features
      (SSDMNASNetA1FpnFeatureExtractor.init
        ⟨true, 1, 16, 1, 3, 7, 256, none, false, false, false⟩)
      ⟨1, 64, 64, 3, [0]⟩ = (tr, Except.ok maps) ∧
      tr.filter isFpnTopDownCall = [Event.fpnTopDownCall
        ["layer_7", "layer_13", "layer_18"] 256 false false] ∧
      maps[0]? = some (topDownOf
        ⟨true, 1, 16, 1, 3, 7, 256, none, false, false, false⟩
        "layer_7") := by
  obtain ⟨tr, maps, heq, hfil, hL⟩ := (C2_fpn_wiring
    ⟨true, 1, 16, 1, 3, 7, 256, none, false, false, false⟩
    ⟨1, 64, 64, 3, [0]⟩ (by norm_num) (by norm_num) (by norm_num)
    (by norm_num) (by norm_num)).1
  refine ⟨tr, maps, heq, ?_, ?_⟩
  · rw [hfil,
      show fpnKeys feature_blocks_A1
          ⟨true, 1, 16, 1, 3, 7, 256, none, false, false, false⟩ =
        ["layer_7", "layer_13", "layer_18"] from rfl,
      show depth_fn ⟨true, 1, 16, 1, 3, 7, 256, none, false, false, false⟩
          (⟨true, 1, 16, 1, 3, 7, 256, none, false, false, false⟩ :
            Config).additional_layer_depth = 256 from by
        norm_num [depth_fn, intTrunc]]
  · exact (hL 3 (by norm_num) (by norm_num)).2

theorem claim3_part (fb : List String) (fe : String) (cfg : Config)
    (h2 : 2 ≤ cfg.fpn_min_level) (h5 : cfg.fpn_min_level ≤ 5)
    (hlm : cfg.fpn_min_level ≤ cfg.fpn_max_level)
    (tr : List Event) (maps : List T)
    (htr : tr = [Event.mnasnetBaseCall fe,
      Event.fpnTopDownCall (fpnKeys fb cfg)
        (depth_fn cfg cfg.additional_layer_depth)
        cfg.use_depthwise cfg.use_explicit_padding] ++ (coarseOf fb cfg).2)
    (hmaps : maps = fpnMapsOf fb cfg ++ (coarseOf fb cfg).1) :
    (5 < cfg.fpn_max_level →
      maps.length = (6 - cfg.fpn_min_level).toNat +
        (cfg.fpn_max_level - 5).toNat ∧
      (tr.filter isConvCreated).length = (cfg.fpn_max_level - 5).toNat ∧
      (∀ j : Nat, (j : Int) < cfg.fpn_max_level - 5 →
        (tr.filter isConvCreated)[j]? = some (Event.convCreated
          ("bottom_up_Conv2d_" ++ toString (20 + (j : Int))) 3 2
          (if cfg.use_explicit_padding then "VALID" else "SAME")
          (depth_fn cfg cfg.additional_layer_depth) cfg.use_depthwise) ∧
        ∃ prev, maps[(6 - cfg.fpn_min_level).toNat + j - 1]? = some prev ∧
          maps[(6 - cfg.fpn_min_level).toNat + j]? =
            some (nextCoarse cfg
              (depth_fn cfg cfg.additional_layer_depth)
              ("bottom_up_Conv2d_" ++ toString (20 + (j : Int))) prev))) ∧
    (cfg.fpn_max_level ≤ 5 →
      maps.length = (cfg.fpn_max_level + 1 - cfg.fpn_min_level).toNat ∧
      tr.filter isConvCreated = []) := by
  subst htr hmaps
  have hb1 : cfg.fpn_min_level ≤ min cfg.fpn_max_level 5 := le_min hlm h5
  constructor
  · intro hmax
    have hmin5 : min cfg.fpn_max_level 5 = 5 := min_eq_right (by omega)
    have hfil : (([Event.mnasnetBaseCall fe,
        Event.fpnTopDownCall (fpnKeys fb cfg)
          (depth_fn cfg cfg.additional_layer_depth)
          cfg.use_depthwise cfg.use_explicit_padding] ++
        (coarseOf fb cfg).2).filter isConvCreated) =
        (coarseOf fb cfg).2 := by
      simp [List.filter_append, List.filter_cons, isConvCreated,
        coarseOf_snd_filter_conv]
    have hn0 : (fpnMapsOf fb cfg).length =
        (6 - cfg.fpn_min_level).toNat := by
      rw [fpnMapsOf_length, hmin5]
      omega
    have hclen : ((coarseOf fb cfg).1).length =
        (cfg.fpn_max_level - 5).toNat := by
      rw [coarseOf_fst_length, hmin5]
    refine ⟨?_, ?_, ?_⟩
    · rw [List.length_append, hn0, hclen]
    · rw [hfil, coarseOf_snd_length, hmin5]
    · intro j hj
      refine ⟨?_, ?_⟩
      · rw [hfil]
        exact coarseOf_snd_getElem hmax hj
      · cases j with
        | zero =>
          refine ⟨topDownOf cfg
            (fb.getD (min cfg.fpn_max_level 5 - 2).toNat ""), ?_, ?_⟩
          · rw [List.getElem?_append_left (by rw [hn0]; omega)]
            have hlast := @fpnMapsOf_getElem fb cfg
              (min cfg.fpn_max_level 5) hb1 (le_refl _)
            rw [show (min cfg.fpn_max_level 5 -
                cfg.fpn_min_level).toNat =
              (6 - cfg.fpn_min_level).toNat + 0 - 1 from by omega] at hlast
            exact hlast
          · rw [List.getElem?_append_right (by rw [hn0]; omega)]
            rw [show (6 - cfg.fpn_min_level).toNat + 0 -
              (fpnMapsOf fb cfg).length = 0 from by rw [hn0]; omega]
            exact coarseOf_fst_chain hmax hj
        | succ j0 =>
          have hj0 : j0 < ((coarseOf fb cfg).1).length := by
            rw [hclen]
            omega
          refine ⟨((coarseOf fb cfg).1).getD j0 T.inp, ?_, ?_⟩
          · rw [List.getElem?_append_right (by rw [hn0]; omega)]
            rw [show (6 - cfg.fpn_min_level).toNat + (j0 + 1) - 1 -
              (fpnMapsOf fb cfg).length = j0 from by rw [hn0]; omega]
            exact getElem?_eq_some_getD T.inp hj0
          · rw [List.getElem?_append_right (by rw [hn0]; omega)]
            rw [show (6 - cfg.fpn_min_level).toNat + (j0 + 1) -
              (fpnMapsOf fb cfg).length = j0 + 1 from by rw [hn0]; omega]
            have hch := @coarseOf_fst_chain fb cfg (j0 + 1) hmax hj
            rw [hch, List.getD_cons_succ]
  · intro hle
    have hmin : min cfg.fpn_max_level 5 = cfg.fpn_max_level :=
      min_eq_left hle
    have hnil : coarseNums cfg = [] := by
      rw [coarseNums, hmin, rangeInt]
      rw [show ((cfg.fpn_max_level + 1) -
        (cfg.fpn_max_level + 1)).toNat = 0 from by omega]
      rfl
    have hc1 : (coarseOf fb cfg).1 = [] := by
      rw [coarseOf, hnil]
      rfl
    have hc2 : (coarseOf fb cfg).2 = [] := by
      rw [coarseOf, hnil]
      rfl
    constructor
    · rw [List.length_append, fpnMapsOf_length, hmin, hc1]
      simp
    · rw [hc2]
      simp [List.filter_append, List.filter_cons, isConvCreated]

/-- C3: when `fpn_max_level > 5`, `extract_features` appends exactly
`fpn_max_level - 5` coarse feature maps after the FPN top-down maps, each
built by a 3x3 stride-2 convolution (`nextCoarse`) applied to the previous
last feature map, under consecutively numbered variable scopes
`bottom_up_Conv2d_20`, `bottom_up_Conv2d_21`, ...; when
`fpn_max_level ≤ 5` no coarse map and no such convolution is added. -/
theorem C3_coarse_feature_maps (cfg : Config) (img : ImageBatch)
    (h2 : 2 ≤ cfg.fpn_min_level) (h5 : cfg.fpn_min_level ≤ 5)
    (hlm : cfg.fpn_min_level ≤ cfg.fpn_max_level)
    (hh : 33 ≤ img.height) (hw : 33 ≤ img.width) :
    (∃ tr maps, SSDMNASNetA1FpnFeatureExtractor.extract_features
        (SSDMNASNetA1FpnFeatureExtractor.init cfg) img =
        (tr, Except.ok maps) ∧
      ((5 < cfg.fpn_max_level →
        maps.length = (6 - cfg.fpn_min_level).toNat +
          (cfg.fpn_max_level - 5).toNat ∧
        (tr.filter isConvCreated).length = (cfg.fpn_max_level - 5).toNat ∧
        (∀ j : Nat, (j : Int) < cfg.fpn_max_level - 5 →
          (tr.filter isConvCreated)[j]? = some (Event.convCreated
            ("bottom_up_Conv2d_" ++ toString (20 + (j : Int))) 3 2
            (if cfg.use_explicit_padding then "VALID" else "SAME")
            (depth_fn cfg cfg.additional_layer_depth)
            cfg.use_depthwise) ∧
          ∃ prev,
            maps[(6 - cfg.fpn_min_level).toNat + j - 1]? = some prev ∧
            maps[(6 - cfg.fpn_min_level).toNat + j]? =
              some (nextCoarse cfg
                (depth_fn cfg cfg.additional_layer_depth)
                ("bottom_up_Conv2d_" ++ toString (20 + (j : Int)))
                prev))) ∧
      (cfg.fpn_max_level ≤ 5 →
        maps.length = (cfg.fpn_max_level + 1 - cfg.fpn_min_level).toNat ∧
        tr.filter isConvCreated = []))) ∧
    (∃ tr maps, SSDMNASNetB1FpnFeatureExtractor.extract_features
        (SSDMNASNetB1FpnFeatureExtractor.init cfg) img =
        (tr, Except.ok maps) ∧
      ((5 < cfg.fpn_max_level →
        maps.length = (6 - cfg.fpn_min_level).toNat +
          (cfg.fpn_max_level - 5).toNat ∧
        (tr.filter isConvCreated).length = (cfg.fpn_max_level - 5).toNat ∧
        (∀ j : Nat, (j : Int) < cfg.fpn_max_level - 5 →
          (tr.filter isConvCreated)[j]? = some (Event.convCreated
            ("bottom_up_Conv2d_" ++ toString (20 + (j : Int))) 3 2
            (if cfg.use_explicit_padding then "VALID" else "SAME")
            (depth_fn cfg cfg.additional_layer_depth)
            cfg.use_depthwise) ∧
          ∃ prev,
            maps[(6 - cfg.fpn_min_level).toNat + j - 1]? = some prev ∧
            maps[(6 - cfg.fpn_min_level).toNat + j]? =
              some (nextCoarse cfg
                (depth_fn cfg cfg.additional_layer_depth)
                ("bottom_up_Conv2d_" ++ toString (20 + (j : Int)))
                prev))) ∧
      (cfg.fpn_max_level ≤ 5 →
        maps.length = (cfg.fpn_max_level + 1 - cfg.fpn_min_level).toNat ∧
        tr.filter isConvCreated = []))) :=
  ⟨⟨_, _, extract_features_A1_eq cfg img h2 h5 hlm hh hw,
      claim3_part feature_blocks_A1 "layer_18" cfg h2 h5 hlm _ _ rfl rfl⟩,
    ⟨_, _, extract_features_B1_eq cfg img h2 h5 hlm hh hw,
      claim3_part feature_blocks_B1 "layer_19" cfg h2 h5 hlm _ _ rfl rfl⟩⟩

/-- C3 witness: with the defaults (3, 7), the A1 variant builds exactly
two coarse convolutions, the first in scope `bottom_up_Conv2d_20`, and the
additional-layer depth evaluates to 256. -/
theorem C3_coarse_feature_maps_witness :
    ∃ tr maps, SSDMNASNetA1FpnFeatureExtractor.extract_features
      (SSDMNASNetA1FpnFeatureExtractor.init
        ⟨true, 1, 16, 1, 3, 7, 256, none, false, false, false⟩)
      ⟨1, 64, 64, 3, [0]⟩ = (tr, Except.ok maps) ∧
      maps.length = 5 ∧
      (tr.filter isConvCreated).length = 2 ∧
      (tr.filter isConvCreated)[0]? = some (Event.convCreated
        "bottom_up_Conv2d_20" 3 2 "SAME"
        (depth_fn ⟨true, 1, 16, 1, 3, 7, 256, none, false, false, false⟩
          256) false) ∧
      depth_fn ⟨true, 1, 16, 1, 3, 7, 256, none, false, false, false⟩
        256 = 256 := by
  obtain ⟨tr, maps, heq, hbig, hsmall⟩ := (C3_coarse_feature_maps
    ⟨true, 1, 16, 1, 3, 7, 256, none, false, false, false⟩
    ⟨1, 64, 64, 3, [0]⟩ (by norm_num) (by norm_num) (by norm_num)
    (by norm_num) (by norm_num)).1
  obtain ⟨hlen, hflen, hj⟩ := hbig (by norm_num)
  obtain ⟨hev, prev, hprev, hcur⟩ := hj 0 (by norm_num)
  exact ⟨tr, maps, heq, hlen, hflen, hev, by
    norm_num [depth_fn, intTrunc]⟩

theorem claim1_part (fb : List String) (cfg : Config)
    (h2 : 2 ≤ cfg.fpn_min_level) (h5 : cfg.fpn_min_level ≤ 5)
    (hlm : cfg.fpn_min_level ≤ cfg.fpn_max_level)
    (maps : List T)
    (hmaps : maps = fpnMapsOf fb cfg ++ (coarseOf fb cfg).1) :
    maps.length = (cfg.fpn_max_level - cfg.fpn_min_level + 1).toNat ∧
    (∀ L : Int, cfg.fpn_min_level ≤ L → L ≤ min cfg.fpn_max_level 5 →
      maps[(L - cfg.fpn_min_level).toNat]? =
        some (topDownOf cfg (fb.getD (L - 2).toNat ""))) ∧
    (∀ L : Int, 5 < L → L ≤ cfg.fpn_max_level →
      ∃ prev, maps[(L - cfg.fpn_min_level).toNat - 1]? = some prev ∧
        maps[(L - cfg.fpn_min_level).toNat]? =
          some (nextCoarse cfg (depth_fn cfg cfg.additional_layer_depth)
            ("bottom_up_Conv2d_" ++ toString (L + 14)) prev)) := by
  subst hmaps
  have hb1 : cfg.fpn_min_level ≤ min cfg.fpn_max_level 5 := le_min hlm h5
  have hb2 : min cfg.fpn_max_level 5 ≤ cfg.fpn_max_level :=
    min_le_left _ _
  refine ⟨?_, ?_, ?_⟩
  · rw [List.length_append, fpnMapsOf_length, coarseOf_fst_length]
    omega
  · intro L hL1 hL2
    rw [List.getElem?_append_left (by rw [fpnMapsOf_length]; omega)]
    exact fpnMapsOf_getElem hL1 hL2
  · intro L hL5 hLm
    have hmax : 5 < cfg.fpn_max_level := lt_of_lt_of_le hL5 hLm
    have h3 := (claim3_part fb "" cfg h2 h5 hlm
      ([Event.mnasnetBaseCall "",
        Event.fpnTopDownCall (fpnKeys fb cfg)
          (depth_fn cfg cfg.additional_layer_depth)
          cfg.use_depthwise cfg.use_explicit_padding] ++
        (coarseOf fb cfg).2)
      (fpnMapsOf fb cfg ++ (coarseOf fb cfg).1) rfl rfl).1 hmax
    obtain ⟨hlen3, hflen3, hjall⟩ := h3
    obtain ⟨hev, prev, hprev, hcur⟩ := hjall (L - 6).toNat (by omega)
    refine ⟨prev, ?_, ?_⟩
    · rw [show (L - cfg.fpn_min_level).toNat - 1 =
        (6 - cfg.fpn_min_level).toNat + (L - 6).toNat - 1 from by omega]
      exact hprev
    · rw [show (L - cfg.fpn_min_level).toNat =
        (6 - cfg.fpn_min_level).toNat + (L - 6).toNat from by omega]
      rw [show (20 : Int) + ((L - 6).toNat : Int) = L + 14 from by
        omega] at hcur
      exact hcur

/-- C1 (amended): for every instance whose `fpn_min_level` lies in the
documented valid range `2..5` and is at most `fpn_max_level`, and every
input with height and width at least 33, `extract_features` of both
variants succeeds and returns exactly
`fpn_max_level - fpn_min_level + 1` feature maps, ordered from the
`fpn_min_level` map first to the `fpn_max_level` map last: for every
level `L` in `[fpn_min_level, fpn_max_level]`, position
`L - fpn_min_level` of the list holds the level-`L` map — the FPN
top-down map of that level's backbone endpoint for
`L ≤ min(fpn_max_level, 5)`, and the 3x3 stride-2 coarse convolution of
the previous map (in scope `bottom_up_Conv2d_{L+14}`) for `L > 5`. -/
theorem C1_feature_map_count (cfg : Config) (img : ImageBatch)
    (h2 : 2 ≤ cfg.fpn_min_level) (h5 : cfg.fpn_min_level ≤ 5)
    (hlm : cfg.fpn_min_level ≤ cfg.fpn_max_level)
    (hh : 33 ≤ img.height) (hw : 33 ≤ img.width) :
    (∃ tr maps, SSDMNASNetA1FpnFeatureExtractor.extract_features
        (SSDMNASNetA1FpnFeatureExtractor.init cfg) img =
        (tr, Except.ok maps) ∧
      maps.length = (cfg.fpn_max_level - cfg.fpn_min_level + 1).toNat ∧
      (∀ L : Int, cfg.fpn_min_level ≤ L → L ≤ min cfg.fpn_max_level 5 →
        maps[(L - cfg.fpn_min_level).toNat]? =
          some (topDownOf cfg (feature_blocks_A1.getD (L - 2).toNat ""))) ∧
      (∀ L : Int, 5 < L → L ≤ cfg.fpn_max_level →
        ∃ prev, maps[(L - cfg.fpn_min_level).toNat - 1]? = some prev ∧
          maps[(L - cfg.fpn_min_level).toNat]? =
            some (nextCoarse cfg
              (depth_fn cfg cfg.additional_layer_depth)
              ("bottom_up_Conv2d_" ++ toString (L + 14)) prev))) ∧
    (∃ tr maps, SSDMNASNetB1FpnFeatureExtractor.extract_features
        (SSDMNASNetB1FpnFeatureExtractor.init cfg) img =
        (tr, Except.ok maps) ∧
      maps.length = (cfg.fpn_max_level - cfg.fpn_min_level + 1).toNat ∧
      (∀ L : Int, cfg.fpn_min_level ≤ L → L ≤ min cfg.fpn_max_level 5 →
        maps[(L - cfg.fpn_min_level).toNat]? =
          some (topDownOf cfg (feature_blocks_B1.getD (L - 2).toNat ""))) ∧
      (∀ L : Int, 5 < L → L ≤ cfg.fpn_max_level →
        ∃ prev, maps[(L - cfg.fpn_min_level).toNat - 1]? = some prev ∧
          maps[(L - cfg.fpn_min_level).toNat]? =
            some (nextCoarse cfg
              (depth_fn cfg cfg.additional_layer_depth)
              ("bottom_up_Conv2d_" ++ toString (L + 14)) prev))) :=
  ⟨⟨_, _, extract_features_A1_eq cfg img h2 h5 hlm hh hw,
      claim1_part feature_blocks_A1 cfg h2 h5 hlm _ rfl⟩,
    ⟨_, _, extract_features_B1_eq cfg img h2 h5 hlm hh hw,
      claim1_part feature_blocks_B1 cfg h2 h5 hlm _ rfl⟩⟩

/-- C1 witness: with the defaults `fpn_min_level = 3`, `fpn_max_level = 7`
and a 64x64 input, the A1 variant returns exactly 5 feature maps, whose
first element is the level-3 map (top-down map of `layer_7`) and whose
last element (position 4) is the level-7 coarse map built in scope
`bottom_up_Conv2d_21` from the map before it. -/
theorem C1_feature_map_count_witness :
    ∃ tr maps, SSDMNASNetA1FpnFeatureExtractor.extract_features
        (SSDMNASNetA1FpnFeatureExtractor.init
          ⟨true, 1, 16, 1, 3, 7, 256, none, false, false, false⟩)
        ⟨1, 64, 64, 3, [0]⟩ = (tr, Except.ok maps) ∧
      maps.length = 5 ∧
      maps[0]? = some (topDownOf
        ⟨true, 1, 16, 1, 3, 7, 256, none, false, false, false⟩
        "layer_7") ∧
      ∃ prev, maps[3]? = some prev ∧
        maps[4]? = some (nextCoarse
          ⟨true, 1, 16, 1, 3, 7, 256, none, false, false, false⟩
          (depth_fn ⟨true, 1, 16, 1, 3, 7, 256, none, false, false, false⟩
            256)
          "bottom_up_Conv2d_21" prev) := by
  obtain ⟨tr, maps, heq, hlen, hfpn, hcoarse⟩ := (C1_feature_map_count
    ⟨true, 1, 16, 1, 3, 7, 256, none, false, false, false⟩
    ⟨1, 64, 64, 3, [0]⟩ (by norm_num) (by norm_num) (by norm_num)
    (by norm_num) (by norm_num)).1
  exact ⟨tr, maps, heq, hlen, hfpn 3 (by norm_num) (by norm_num),
    hcoarse 7 (by norm_num) (by norm_num)⟩
